import Mathlib

/-!
Shallow embedding of the SigV0.01 trading-signal core:
`strategy.py` (setup detection), `signal_generator.py` (sentiment gate,
stop-loss / take-profit / position-size calculations, signal assembly) and
`backtest.py` (bar-by-bar simulation loop).

Python floats are modelled as exact rationals (`ℚ`); a pandas value that can
be NaN (an indicator cell without enough lookback) is modelled as `Option ℚ`,
with `none` behaving like NaN: every comparison against it is false and a
pandas `dropna` corresponds to `List.filterMap`.  Bar dates are modelled by
their integer bar index.  The wall-clock timestamp written into a signal by
`datetime.now()` is modelled as an explicit `now : String` input.
-/

namespace SigBot

/-- Trade direction, the `'LONG'` / `'SHORT'` strings of the source. -/
inductive Dir where
  | LONG
  | SHORT
deriving DecidableEq

/-- One OHLCV candle.  The `open` column is named `opn` (`open` is a Lean
keyword); it is carried for data-model fidelity but unused by the core. -/
structure Candle where
  opn : ℚ
  high : ℚ
  low : ℚ
  close : ℚ
  volume : ℚ
deriving DecidableEq

/-- One row of the indicator-augmented frame (a row of the DataFrame after
`TradingStrategy.calculate_indicators`).  Indicator cells are `Option ℚ`:
`none` models a NaN cell (insufficient lookback / sparse swing series). -/
structure Row where
  high : ℚ
  low : ℚ
  close : ℚ
  volume : ℚ
  ema_fast : Option ℚ
  ema_slow : Option ℚ
  rsi : Option ℚ
  atr : Option ℚ
  bb_upper : Option ℚ
  bb_lower : Option ℚ
  bb_width : Option ℚ
  volume_sma : Option ℚ
  swing_high : Option ℚ
  swing_low : Option ℚ
deriving DecidableEq

/-- Configuration values read via `config.get(...)` in the source, with the
source's documented defaults. -/
structure Config where
  risk_percent : ℚ := 2
  atr_multiplier_sl : ℚ := 2
  take_profit_ratios : List ℚ := [1, 3/2, 5/2]
  breakeven_after_tp : Nat := 1
  trailing_atr_multiplier : ℚ := 5/2
  min_confidence : ℚ := 3/5
  sentiment_threshold : ℚ := 1/5
  account_balance : ℚ := 10000
  ema_slow : Nat := 200
  rsi_long_threshold : ℚ := 50
  rsi_short_threshold : ℚ := 50

/-- Last `n` elements of a list: `series.tail(n)` / `iloc[-n:]` in pandas. -/
def tailN (n : Nat) (l : List α) : List α := l.drop (l.length - n)

/-- Minimum of a list of rationals, `none` on the empty list (pandas
`Series.min()` of an empty series is NaN). -/
def listMin : List ℚ → Option ℚ
  | [] => none
  | x :: xs =>
    match listMin xs with
    | none => some x
    | some m => some (min x m)

/-- Maximum of a list of rationals, `none` on the empty list. -/
def listMax : List ℚ → Option ℚ
  | [] => none
  | x :: xs =>
    match listMax xs with
    | none => some x
    | some m => some (max x m)

/-- Arithmetic mean of a list, `none` on the empty list (pandas `mean()`
skips NaN, so the caller passes only the defined cells). -/
def listMean (l : List ℚ) : Option ℚ :=
  if l = [] then none else some (l.sum / l.length)

/-- Direction of a Bollinger-band breakout (`'up'` / `'down'`). -/
inductive BreakDir where
  | up
  | down
deriving DecidableEq

/-- Result of `TradingStrategy.detect_pullback_setup`: the Setup dict. -/
structure Setup where
  valid : Bool
  direction : Option Dir
  strength : Nat
  conditions : List String
  confidence : Option ℚ
  reason : Option String
deriving DecidableEq

/-- Embedding of `TradingStrategy.detect_bollinger_squeeze`.  NaN
comparisons being false in pandas is mirrored by the `none` fallthroughs. -/
def detect_bollinger_squeeze (df : List Row) : Bool × Option BreakDir :=
  if df.length < 20 then (false, none)
  else
    match df.getLast? with
    | none => (false, none)
    | some current =>
      let widths := (tailN 20 df).filterMap Row.bb_width
      let is_squeezed : Bool :=
        match current.bb_width, listMean widths with
        | some w, some m => decide (w < m * (8/10))
        | _, _ => false
      if is_squeezed then
        let upBreak : Bool :=
          match current.bb_upper with
          | some u => decide (u < current.close)
          | none => false
        let downBreak : Bool :=
          match current.bb_lower with
          | some l => decide (current.close < l)
          | none => false
        if upBreak then (true, some BreakDir.up)
        else if downBreak then (true, some BreakDir.down)
        else (true, none)
      else (false, none)

/-- Embedding of `TradingStrategy.detect_pullback_setup`.  The incremental
dict mutation of the source is modelled by computing the
(direction, strength, conditions) triple branch by branch and assembling the
Setup record once at the end, exactly as the final validation step reads it. -/
def detect_pullback_setup (cfg : Config) (df : List Row) : Setup :=
  if df.length < max cfg.ema_slow 50 then
    { valid := false, direction := none, strength := 0, conditions := [],
      confidence := none, reason := some ("Insufficient data") }
  else
    match df.getLast? with
    | none =>
      { valid := false, direction := none, strength := 0, conditions := [],
        confidence := none, reason := some ("Insufficient data") }
    | some current =>
      match current.ema_fast, current.ema_slow, current.rsi, current.atr with
      | some ef, some es, some rsiv, some _ =>
        let sq := detect_bollinger_squeeze df
        let bb_squeezed := sq.1
        let bb_breakout := sq.2
        let volume_above_average : Bool :=
          match current.volume_sma with
          | some sma => decide (sma < current.volume)
          | none => true
        let res : Option Dir × Nat × List String :=
          if es < ef ∧ cfg.rsi_long_threshold < rsiv then
            let s1 : Nat × List String :=
              if bb_breakout = some BreakDir.up then (2, ["BB Breakout Up"])
              else if bb_squeezed then (1, ["BB Squeeze"])
              else (0, [])
            let s2 : Nat × List String :=
              if volume_above_average then (1, ["Volume Above Average"]) else (0, [])
            let s3 : Nat × List String :=
              match listMin ((tailN 10 df).map Row.low) with
              | some m => if m * (102/100) < current.close then (1, ["Above Recent Low"]) else (0, [])
              | none => (0, [])
            (some Dir.LONG, 2 + s1.1 + s2.1 + s3.1,
              ["EMA50 > EMA200", "RSI > 50"] ++ s1.2 ++ s2.2 ++ s3.2)
          else if ef < es ∧ rsiv < cfg.rsi_short_threshold then
            let s1 : Nat × List String :=
              if bb_breakout = some BreakDir.down then (2, ["BB Breakout Down"])
              else if bb_squeezed then (1, ["BB Squeeze"])
              else (0, [])
            let s2 : Nat × List String :=
              if volume_above_average then (1, ["Volume Above Average"]) else (0, [])
            let s3 : Nat × List String :=
              match listMax ((tailN 10 df).map Row.high) with
              | some m => if current.close < m * (98/100) then (1, ["Below Recent High"]) else (0, [])
              | none => (0, [])
            (some Dir.SHORT, 2 + s1.1 + s2.1 + s3.1,
              ["EMA50 < EMA200", "RSI < 50"] ++ s1.2 ++ s2.2 ++ s3.2)
          else (none, 0, [])
        if res.1.isSome ∧ 3 ≤ res.2.1 then
          { valid := true, direction := res.1, strength := res.2.1,
            conditions := res.2.2,
            confidence := some (min ((res.2.1 : ℚ) / 6) 1), reason := none }
        else
          { valid := false, direction := res.1, strength := res.2.1,
            conditions := res.2.2, confidence := none, reason := none }
      | _, _, _, _ =>
        { valid := false, direction := none, strength := 0, conditions := [],
          confidence := none, reason := some ("Invalid indicator values") }

/-- Embedding of `TradingStrategy.calculate_position_size` (strategy.py).
This variant has no notional cap; it is dead code in the repository (the
signal path uses `SignalGenerator._calculate_position_size` below). -/
def strategy_calculate_position_size (account_balance risk_percent entry_price stop_loss : ℚ) : ℚ :=
  let risk_amount := account_balance * (risk_percent / 100)
  let price_diff := |entry_price - stop_loss|
  if price_diff = 0 then 0
  else risk_amount / price_diff

/-- Trailing-stop descriptor carried on a Signal. -/
structure TrailingStop where
  enabled : Bool
  atr_multiplier : ℚ
  initial_stop : ℚ
deriving DecidableEq

/-- The `metadata` sub-dict of a Signal. -/
structure SignalMeta where
  ema_fast : ℚ
  ema_slow : ℚ
  rsi : ℚ
  bb_width : ℚ
  volume_ratio : ℚ
deriving DecidableEq

/-- A composed trading signal (`SignalGenerator._calculate_signal_details`
output dict).  `timestamp` holds the `datetime.now().isoformat()` string. -/
structure Signal where
  timestamp : String
  symbol : String
  timeframe : String
  direction : Dir
  entry_price : ℚ
  stop_loss : ℚ
  take_profits : List ℚ
  position_size : ℚ
  risk_amount : ℚ
  risk_percent : ℚ
  confidence : ℚ
  sentiment_score : ℚ
  reasons : List String
  atr : ℚ
  breakeven_after_tp : Nat
  trailing_stop : TrailingStop
  metadata : SignalMeta
deriving DecidableEq

/-- Embedding of `SignalGenerator._validate_sentiment_alignment`. -/
def validate_sentiment_alignment (threshold s : ℚ) (direction : Dir) : Bool :=
  if |s| < 1/100 then true
  else
    match direction with
    | Dir.LONG => decide (threshold ≤ s)
    | Dir.SHORT => decide (s ≤ -threshold)

/-- Embedding of `SignalGenerator._calculate_stop_loss`.  `dropna().tail(5)`
on the sparse swing series is `tailN 5` of the `filterMap`ped values. -/
def calculate_stop_loss (atr_multiplier_sl : ℚ) (df : List Row) (direction : Dir)
    (entry_price atrv : ℚ) : ℚ :=
  let atr_stop := atrv * atr_multiplier_sl
  match direction with
  | Dir.LONG =>
    let atr_sl := entry_price - atr_stop
    let swing_lows := tailN 5 (df.filterMap Row.swing_low)
    match listMin swing_lows with
    | some m => min atr_sl (m * (998/1000))
    | none => atr_sl
  | Dir.SHORT =>
    let atr_sl := entry_price + atr_stop
    let swing_highs := tailN 5 (df.filterMap Row.swing_high)
    match listMax swing_highs with
    | some m => max atr_sl (m * (1002/1000))
    | none => atr_sl

/-- Embedding of `SignalGenerator._calculate_take_profits`: one target per
configured R-multiple, direction-signed. -/
def calculate_take_profits (entry_price stop_loss : ℚ) (direction : Dir)
    (take_profit_ratios : List ℚ) : List ℚ :=
  let risk_amount := |entry_price - stop_loss|
  take_profit_ratios.map (fun r =>
    match direction with
    | Dir.LONG => entry_price + risk_amount * r
    | Dir.SHORT => entry_price - risk_amount * r)

/-- Embedding of `SignalGenerator._calculate_position_size`: fixed-fractional
risk sizing capped at 10% of the account's notional value. -/
def calculate_position_size (risk_percent account_balance entry_price stop_loss : ℚ) : ℚ :=
  let risk_amount := account_balance * (risk_percent / 100)
  let price_diff := |entry_price - stop_loss|
  if price_diff = 0 then 0
  else
    let position_size := risk_amount / price_diff
    let max_position_value := account_balance * (1/10)
    let max_position_size := max_position_value / entry_price
    min position_size max_position_size

/-- Embedding of `SignalGenerator._calculate_confidence`.  NaN cells give no
boost (NaN comparisons are false in pandas), mirrored by the `none` cases. -/
def calculate_confidence (setup : Setup) (sentiment : ℚ) (df : List Row) : ℚ :=
  match df.getLast? with
  | none => 1/2
  | some current =>
    let base_confidence := setup.confidence.getD (1/2)
    let sentiment_boost : ℚ :=
      if (1/2 : ℚ) < |sentiment| then 1/5
      else if (3/10 : ℚ) < |sentiment| then 1/10
      else 0
    let volume_boost : ℚ :=
      match current.volume_sma with
      | some sma => if sma * (3/2) < current.volume then 1/10 else 0
      | none => 0
    let trend_boost : ℚ :=
      match current.ema_fast, current.ema_slow with
      | some ef, some es => if (1/50 : ℚ) < |ef - es| / es then 1/10 else 0
      | _, _ => 0
    let rsi_boost : ℚ :=
      match current.rsi, setup.direction with
      | some r, some Dir.LONG => if 50 < r ∧ r < 70 then 1/20 else 0
      | some r, some Dir.SHORT => if 30 < r ∧ r < 50 then 1/20 else 0
      | _, _ => 0
    min 1 (base_confidence + sentiment_boost + volume_boost + trend_boost + rsi_boost)

/-- Embedding of `SignalGenerator._get_sentiment_description`. -/
def get_sentiment_description (s : ℚ) : String :=
  if (1/2 : ℚ) ≤ s then ("Very Positive Sentiment")
  else if (1/5 : ℚ) ≤ s then ("Positive Sentiment")
  else if (-(1/5) : ℚ) < s then ("Neutral Sentiment")
  else if (-(1/2) : ℚ) < s then ("Negative Sentiment")
  else ("Very Negative Sentiment")

/-- Embedding of `SignalGenerator._calculate_signal_details`.  A last row
with an undefined indicator cell makes the whole dict NaN-poisoned /
exceptional in the source; that path is modelled as `none` (it is
unreachable after a valid Setup, which requires those cells defined). -/
def calculate_signal_details (cfg : Config) (df : List Row) (setup : Setup)
    (sentiment : ℚ) (symbol timeframe now : String) : Option Signal :=
  match df.getLast?, setup.direction with
  | some current, some direction =>
    match current.atr, current.ema_fast, current.ema_slow, current.rsi with
    | some atrv, some ef, some es, some rsiv =>
      let entry_price := current.close
      let stop_loss := calculate_stop_loss cfg.atr_multiplier_sl df direction entry_price atrv
      let position_size := calculate_position_size cfg.risk_percent cfg.account_balance entry_price stop_loss
      let take_profits := calculate_take_profits entry_price stop_loss direction cfg.take_profit_ratios
      let confidence := calculate_confidence setup sentiment df
      let reasons := setup.conditions ++ [get_sentiment_description sentiment]
      some
        { timestamp := now
          symbol := symbol
          timeframe := timeframe
          direction := direction
          entry_price := entry_price
          stop_loss := stop_loss
          take_profits := take_profits
          position_size := position_size
          risk_amount := |entry_price - stop_loss| * position_size
          risk_percent := cfg.risk_percent
          confidence := confidence
          sentiment_score := sentiment
          reasons := reasons
          atr := atrv
          breakeven_after_tp := cfg.breakeven_after_tp
          trailing_stop :=
            { enabled := true
              atr_multiplier := cfg.trailing_atr_multiplier
              initial_stop := stop_loss }
          metadata :=
            { ema_fast := ef
              ema_slow := es
              rsi := rsiv
              bb_width := current.bb_width.getD 0
              volume_ratio := current.volume / current.volume_sma.getD current.volume } }
    | _, _, _, _ => none
  | _, _ => none

/-- Embedding of `SignalGenerator.generate_signal`: length gate, setup
detection, sentiment-alignment gate, detail calculation, confidence gate. -/
def generate_signal (cfg : Config) (df : List Row) (sentiment : ℚ)
    (symbol timeframe now : String) : Option Signal :=
  if df.length < 200 then none
  else
    let setup := detect_pullback_setup cfg df
    if setup.valid then
      match setup.direction with
      | some direction =>
        if validate_sentiment_alignment cfg.sentiment_threshold sentiment direction then
          match calculate_signal_details cfg df setup sentiment symbol timeframe now with
          | some signal =>
            if cfg.min_confidence ≤ signal.confidence then some signal else none
          | none => none
        else none
      | none => none
    else none

/-! Backtest simulator (`backtest.py`).  The bar loop is embedded as a fold
of a step function over the list of processed bar indices; each index `i`
stands for `df_with_indicators.index[i]`, so a bar's date is its index.  The
signal generation at bar `i` (`generate_signal` on the data seen so far) is
abstracted as a function `signalAt : Nat → Option Signal`; the loop's own
behavior only depends on that interface. -/

/-- Exit reason tag: `'Stop Loss Hit'`, `'Take Profit {k} Hit'`,
`'End of backtest'`. -/
inductive ExitReason where
  | stopLossHit
  | takeProfitHit (level : Nat)
  | endOfBacktest
deriving DecidableEq

/-- Exit-check result dict of `Backtester._check_exit_conditions`. -/
structure ExitResult where
  price : ℚ
  reason : ExitReason
  date : Nat
  tp_level : Option Nat
deriving DecidableEq

/-- An open position dict built by `Backtester._execute_entry`. -/
structure Position where
  symbol : String
  direction : Dir
  entry_price : ℚ
  position_size : ℚ
  stop_loss : ℚ
  take_profits : List ℚ
  entry_date : Nat
  commission_paid : ℚ
  trailing_stop : Option ℚ
  breakeven_triggered : Bool
  tp_levels_hit : Nat
deriving DecidableEq

/-- A finalized trade record appended by `Backtester._execute_exit`.  The
source's `duration_hours` (a wall-clock difference) is outside the
bar-index embedding and omitted. -/
structure Trade where
  symbol : String
  direction : Dir
  entry_date : Nat
  exit_date : Nat
  entry_price : ℚ
  exit_price : ℚ
  position_size : ℚ
  gross_pnl : ℚ
  commission : ℚ
  net_pnl : ℚ
  return_pct : ℚ
  exit_reason : ExitReason
deriving DecidableEq

/-- Embedding of `Backtester._execute_entry`: size capped at 95% of the
balance notional, entry commission charged, `tp_levels_hit` starts at 0. -/
def execute_entry (commission_rate : ℚ) (signal : Signal) (balance : ℚ) (date : Nat) : Position :=
  let entry_price := signal.entry_price
  let position_size := min signal.position_size (balance * (95/100) / entry_price)
  let commission := position_size * entry_price * commission_rate
  { symbol := signal.symbol
    direction := signal.direction
    entry_price := entry_price
    position_size := position_size
    stop_loss := signal.stop_loss
    take_profits := signal.take_profits
    entry_date := date
    commission_paid := commission
    trailing_stop := some signal.trailing_stop.initial_stop
    breakeven_triggered := false
    tp_levels_hit := 0 }

/-- The take-profit scan of `Backtester._check_exit_conditions`:
`for i, tp_price in enumerate(position['take_profits'])`, skipping levels
below `tp_levels_hit`; `i` is the absolute index of the head of `tps`. -/
def check_take_profits (direction : Dir) (tps : List ℚ) (hit : Nat)
    (c : Candle) (date : Nat) (i : Nat) : Option ExitResult :=
  match tps with
  | [] => none
  | tp :: rest =>
    if hit ≤ i then
      match direction with
      | Dir.LONG =>
        if tp ≤ c.high then some ⟨tp, ExitReason.takeProfitHit (i+1), date, some (i+1)⟩
        else check_take_profits direction rest hit c date (i+1)
      | Dir.SHORT =>
        if c.low ≤ tp then some ⟨tp, ExitReason.takeProfitHit (i+1), date, some (i+1)⟩
        else check_take_profits direction rest hit c date (i+1)
    else check_take_profits direction rest hit c date (i+1)

/-- Embedding of `Backtester._check_exit_conditions`: the stop-loss check
runs first, then the take-profit scan. -/
def check_exit_conditions (p : Position) (c : Candle) (date : Nat) : Option ExitResult :=
  match p.direction with
  | Dir.LONG =>
    if c.low ≤ p.stop_loss then some ⟨p.stop_loss, ExitReason.stopLossHit, date, none⟩
    else check_take_profits Dir.LONG p.take_profits p.tp_levels_hit c date 0
  | Dir.SHORT =>
    if p.stop_loss ≤ c.high then some ⟨p.stop_loss, ExitReason.stopLossHit, date, none⟩
    else check_take_profits Dir.SHORT p.take_profits p.tp_levels_hit c date 0

/-- Embedding of `Backtester._execute_exit`: books direction-signed P&L net
of entry+exit commission and returns (new balance, appended Trade). -/
def execute_exit (commission_rate : ℚ) (p : Position) (er : ExitResult) (balance : ℚ) : ℚ × Trade :=
  let exit_price := er.price
  let pnl :=
    match p.direction with
    | Dir.LONG => (exit_price - p.entry_price) * p.position_size
    | Dir.SHORT => (p.entry_price - exit_price) * p.position_size
  let exit_commission := p.position_size * exit_price * commission_rate
  let total_commission := p.commission_paid + exit_commission
  let net_pnl := pnl - total_commission
  (balance + net_pnl,
    { symbol := p.symbol
      direction := p.direction
      entry_date := p.entry_date
      exit_date := er.date
      entry_price := p.entry_price
      exit_price := exit_price
      position_size := p.position_size
      gross_pnl := pnl
      commission := total_commission
      net_pnl := net_pnl
      return_pct := net_pnl / (p.entry_price * p.position_size) * 100
      exit_reason := er.reason })

/-- Embedding of `Backtester._calculate_unrealized_pnl`. -/
def calculate_unrealized_pnl (p : Position) (current_price : ℚ) : ℚ :=
  match p.direction with
  | Dir.LONG => (current_price - p.entry_price) * p.position_size
  | Dir.SHORT => (p.entry_price - current_price) * p.position_size

/-- Mutable loop state of `Backtester._execute_backtest`: the single
`current_position` slot, the running balance, the equity curve and the
append-only trade log. -/
structure BTState where
  balance : ℚ
  position : Option Position
  equity : List ℚ
  trades : List Trade
deriving DecidableEq

/-- Initial state: `equity = [current_balance]` seeded before the loop. -/
def initState (initial_balance : ℚ) : BTState :=
  { balance := initial_balance, position := none,
    equity := [initial_balance], trades := [] }

/-- Exit phase of one loop iteration: if a position is open and an exit
condition fires on the current bar, realize it and clear the slot. -/
def processExit (commission_rate : ℚ) (candles : Nat → Candle) (s : BTState) (i : Nat) : BTState :=
  match s.position with
  | some p =>
    match check_exit_conditions p (candles i) i with
    | some er =>
      let r := execute_exit commission_rate p er s.balance
      { s with balance := r.1, position := none, trades := s.trades ++ [r.2] }
    | none => s
  | none => s

/-- Entry phase of one loop iteration: only if the slot is empty, ask the
signal generator and open a position on acceptance. -/
def processEntry (commission_rate : ℚ) (signalAt : Nat → Option Signal) (s : BTState) (i : Nat) : BTState :=
  match s.position with
  | none =>
    match signalAt i with
    | some sg => { s with position := some (execute_entry commission_rate sg s.balance i) }
    | none => s
  | some _ => s

/-- Equity-curve phase of one loop iteration: append realized balance plus
unrealized P&L of the open position at the bar's close, if any. -/
def recordEquity (candles : Nat → Candle) (s : BTState) (i : Nat) : BTState :=
  let point :=
    match s.position with
    | some p => s.balance + calculate_unrealized_pnl p (candles i).close
    | none => s.balance
  { s with equity := s.equity ++ [point] }

/-- One iteration of the `for i in range(lookback, len(df))` loop: exits are
checked before new entries, then the equity point is recorded. -/
def btStep (commission_rate : ℚ) (signalAt : Nat → Option Signal)
    (candles : Nat → Candle) (s : BTState) (i : Nat) : BTState :=
  recordEquity candles (processEntry commission_rate signalAt (processExit commission_rate candles s i) i) i

/-- The simulation loop over a list of bar indices. -/
def runBars (commission_rate : ℚ) (signalAt : Nat → Option Signal)
    (candles : Nat → Candle) (s : BTState) (bars : List Nat) : BTState :=
  bars.foldl (btStep commission_rate signalAt candles) s

/-- Post-loop force close of any remaining position at the final close price
with reason `'End of backtest'`. -/
def endClose (commission_rate : ℚ) (candles : Nat → Candle) (lastIdx : Nat) (s : BTState) : BTState :=
  match s.position with
  | some p =>
    let er : ExitResult := ⟨(candles lastIdx).close, ExitReason.endOfBacktest, lastIdx, none⟩
    let r := execute_exit commission_rate p er s.balance
    { s with balance := r.1, position := none, trades := s.trades ++ [r.2] }
  | none => s

/-- Embedding of `Backtester._execute_backtest`: run the loop from the
lookback index to the end of data, then force-close. -/
def execute_backtest (commission_rate : ℚ) (signalAt : Nat → Option Signal)
    (candles : Nat → Candle) (initial_balance : ℚ) (lookback n : Nat) : BTState :=
  endClose commission_rate candles (n - 1)
    (runBars commission_rate signalAt candles (initState initial_balance)
      (List.range' lookback (n - lookback)))

/-! Concrete fixtures used by witnesses and counterexamples. -/

/-- All-defaults configuration. -/
def cfg0 : Config := {}

/-- A row whose indicator values put the detector in a LONG setup:
uptrend (ema_fast 110 > ema_slow 100), RSI 60 > 50, volume 20 above its
SMA 10, close 100 more than 2% above the recent low 90; Bollinger cells
undefined, swing cells undefined. -/
def row0 : Row :=
  { high := 101, low := 90, close := 100, volume := 20
    ema_fast := some 110, ema_slow := some 100, rsi := some 60, atr := some 2
    bb_upper := none, bb_lower := none, bb_width := none
    volume_sma := some 10, swing_high := none, swing_low := none }

/-- A 200-row frame of `row0`, long enough for every length gate. -/
def df0 : List Row := List.replicate 200 row0

/-- The Setup the detector produces on `df0`: a LONG setup of strength 4
(trend + RSI give 2, volume 1, pullback-recovery 1; no Bollinger data). -/
def setup0 : Setup :=
  { valid := true, direction := some Dir.LONG, strength := 4
    conditions := ["EMA50 > EMA200", "RSI > 50", "Volume Above Average", "Above Recent Low"]
    confidence := some (2/3), reason := none }

/-- The Signal composed from `df0` at neutral sentiment, parameterized by
the wall-clock string the source reads from `datetime.now()`. -/
def sig0 (now : String) : Signal :=
  { timestamp := now, symbol := "BTCUSDT", timeframe := "1h"
    direction := Dir.LONG, entry_price := 100, stop_loss := 96
    take_profits := [104, 106, 110], position_size := 10
    risk_amount := 40, risk_percent := 2, confidence := 11/12
    sentiment_score := 0
    reasons := ["EMA50 > EMA200", "RSI > 50", "Volume Above Average",
                "Above Recent Low", "Neutral Sentiment"]
    atr := 2, breakeven_after_tp := 1
    trailing_stop := { enabled := true, atr_multiplier := 5/2, initial_stop := 96 }
    metadata := { ema_fast := 110, ema_slow := 100, rsi := 60, bb_width := 0, volume_ratio := 2 } }

/-- The stop-loss trigger predicate of `_check_exit_conditions`
(LONG: bar low ≤ stop; SHORT: bar high ≥ stop). -/
def stop_triggered (direction : Dir) (c : Candle) (stop : ℚ) : Prop :=
  match direction with
  | Dir.LONG => c.low ≤ stop
  | Dir.SHORT => stop ≤ c.high

instance (direction : Dir) (c : Candle) (stop : ℚ) : Decidable (stop_triggered direction c stop) :=
  match direction with
  | Dir.LONG => inferInstanceAs (Decidable (c.low ≤ stop))
  | Dir.SHORT => inferInstanceAs (Decidable (stop ≤ c.high))

/-- The take-profit trigger predicate of `_check_exit_conditions`
(LONG: bar high ≥ tp; SHORT: bar low ≤ tp). -/
def tp_triggered (direction : Dir) (c : Candle) (tp : ℚ) : Prop :=
  match direction with
  | Dir.LONG => tp ≤ c.high
  | Dir.SHORT => c.low ≤ tp

instance (direction : Dir) (c : Candle) (tp : ℚ) : Decidable (tp_triggered direction c tp) :=
  match direction with
  | Dir.LONG => inferInstanceAs (Decidable (tp ≤ c.high))
  | Dir.SHORT => inferInstanceAs (Decidable (c.low ≤ tp))

/-- Blank out the wall-clock timestamp of a signal, leaving every other
field intact; used to compare two generation runs up to the clock. -/
def eraseTimestamp (g : Signal) : Signal := { g with timestamp := "" }

/-- Candle feed: bar 0 closes flat at the entry, later bars dip to 95,
through the stop at 96. -/
def candles0 : Nat → Candle := fun i =>
  if i = 0 then { opn := 100, high := 101, low := 99, close := 100, volume := 5 }
  else { opn := 100, high := 101, low := 95, close := 98, volume := 5 }

/-- Signal feed: the `sig0` signal on bar 0 only. -/
def signalAt0 : Nat → Option Signal := fun i =>
  if i = 0 then some (sig0 ("t0")) else none

/-- The position opened on bar 0 of the `candles0`/`signalAt0` scenario. -/
def pos0 : Position :=
  { symbol := "BTCUSDT", direction := Dir.LONG, entry_price := 100
    position_size := 10, stop_loss := 96, take_profits := [104, 106, 110]
    entry_date := 0, commission_paid := 0, trailing_stop := some 96
    breakeven_triggered := false, tp_levels_hit := 0 }

/-- The trade realized on bar 1 of the scenario. -/
def trade0 : Trade :=
  { symbol := "BTCUSDT", direction := Dir.LONG, entry_date := 0, exit_date := 1
    entry_price := 100, exit_price := 96, position_size := 10
    gross_pnl := -40, commission := 0, net_pnl := -40, return_pct := -4
    exit_reason := ExitReason.stopLossHit }

/-- A candle that hits TP1 of `pos0` (high 105 ≥ 104) without touching the
stop (low 97 > 96). -/
def cTP : Candle := { opn := 100, high := 105, low := 97, close := 100, volume := 5 }

/-- A candle that triggers no exit for `pos0` (high 103 < 104, low 97 > 96). -/
def cNoExit : Candle := { opn := 100, high := 103, low := 97, close := 100, volume := 5 }

/-- A one-row frame carrying a swing low at 90 and a swing high at 105,
for the stop-loss swing-refinement witness. -/
def dfS9 : List Row :=
  [{ row0 with swing_low := some 90, swing_high := some 105 }]

/-! Evaluation lemmas for the fixtures.  `Rat` arithmetic does not reduce
definitionally (its normalization is well-founded recursion), so concrete
runs are evaluated by rewriting. -/

theorem listMin_cons (x : ℚ) (xs : List ℚ) :
    listMin (x :: xs) = some (match listMin xs with | none => x | some m => min x m) := by
  cases h : listMin xs <;> simp [listMin, h]

theorem listMax_cons (x : ℚ) (xs : List ℚ) :
    listMax (x :: xs) = some (match listMax xs with | none => x | some m => max x m) := by
  cases h : listMax xs <;> simp [listMax, h]

theorem listMin_replicate (x : ℚ) (n : Nat) : listMin (List.replicate (n+1) x) = some x := by
  induction n with
  | zero => rfl
  | succ k ih =>
    rw [List.replicate_succ, listMin_cons, ih]
    simp

theorem df0_length : df0.length = 200 := by
  rw [df0, List.length_replicate]

theorem df0_getLast : df0.getLast? = some row0 := by
  rw [df0, List.getLast?_replicate]
  norm_num

theorem df0_tailN10 : tailN 10 df0 = List.replicate 10 row0 := by
  rw [df0, tailN]
  rw [List.length_replicate, List.drop_replicate]

theorem squeeze_df0 : detect_bollinger_squeeze df0 = (false, none) := by
  rw [detect_bollinger_squeeze]
  rw [if_neg (by rw [df0_length]; norm_num)]
  rw [df0_getLast]
  rfl

theorem listMin_replicate10 : listMin (List.replicate 10 (90:ℚ)) = some 90 :=
  listMin_replicate 90 9

theorem none_ne_some_up : (none = some BreakDir.up) = False := by
  simp only [eq_iff_iff, iff_false]
  exact fun h => Option.noConfusion h

theorem detect_df0 : detect_pullback_setup cfg0 df0 = setup0 := by
  rw [detect_pullback_setup]
  rw [if_neg (by rw [df0_length]; decide)]
  rw [df0_getLast]
  norm_num [row0, squeeze_df0, df0_tailN10, List.map_replicate, listMin_replicate10, setup0,
    cfg0, none_ne_some_up]

theorem filterMap_replicate_none {α β : Type} (f : α → Option β) (x : α) (h : f x = none) :
    ∀ n, (List.replicate n x).filterMap f = [] := by
  intro n
  induction n with
  | zero => rfl
  | succ k ih => rw [List.replicate_succ, List.filterMap_cons, h, ih]

theorem df0_swing_lows : df0.filterMap Row.swing_low = [] := by
  rw [df0, filterMap_replicate_none Row.swing_low row0 rfl]

theorem stop_df0 : calculate_stop_loss 2 df0 Dir.LONG 100 2 = 96 := by
  rw [calculate_stop_loss]
  rw [df0_swing_lows]
  norm_num [tailN, listMin]

theorem size_df0 : calculate_position_size 2 10000 100 96 = 10 := by
  rw [calculate_position_size]
  norm_num

theorem tps_df0 :
    calculate_take_profits 100 96 Dir.LONG [1, 3/2, 5/2] = [104, 106, 110] := by
  rw [calculate_take_profits]
  norm_num

theorem conf_df0 : calculate_confidence setup0 0 df0 = 11/12 := by
  rw [calculate_confidence, df0_getLast]
  norm_num [setup0, row0]

theorem details_df0 (now : String) :
    calculate_signal_details cfg0 df0 setup0 0 ("BTCUSDT") ("1h") now = some (sig0 now) := by
  rw [calculate_signal_details, df0_getLast]
  simp only [show setup0.direction = some Dir.LONG from rfl,
    show row0.atr = some 2 from rfl, show row0.ema_fast = some 110 from rfl,
    show row0.ema_slow = some 100 from rfl, show row0.rsi = some 60 from rfl,
    show row0.close = (100:ℚ) from rfl,
    show cfg0.atr_multiplier_sl = 2 from rfl, show cfg0.risk_percent = 2 from rfl,
    show cfg0.account_balance = 10000 from rfl,
    show cfg0.take_profit_ratios = [1, 3/2, 5/2] from rfl]
  rw [stop_df0, tps_df0, size_df0, conf_df0]
  norm_num [sig0, get_sentiment_description, cfg0,
    show setup0.conditions = ["EMA50 > EMA200", "RSI > 50", "Volume Above Average",
      "Above Recent Low"] from rfl,
    show row0.bb_width = none from rfl, show row0.volume_sma = some 10 from rfl,
    show row0.volume = (20:ℚ) from rfl]

theorem gen_df0 (now : String) :
    generate_signal cfg0 df0 0 ("BTCUSDT") ("1h") now = some (sig0 now) := by
  simp only [generate_signal]
  rw [if_neg (by rw [df0_length]; norm_num)]
  rw [detect_df0]
  rw [if_pos (show setup0.valid = true from rfl)]
  simp only [show setup0.direction = some Dir.LONG from rfl]
  rw [show validate_sentiment_alignment cfg0.sentiment_threshold 0 Dir.LONG = true from by
    rw [validate_sentiment_alignment]; norm_num]
  simp only [if_true]
  rw [details_df0]
  simp only []
  rw [if_pos (show cfg0.min_confidence ≤ (sig0 now).confidence from by
    norm_num [cfg0, sig0])]

/-! Concrete backtest scenario: a signal fires on bar 0 and the stop is hit
on bar 1.  Commission rate 0 keeps the arithmetic small. -/

theorem step0_eval : btStep 0 signalAt0 candles0 (initState 10000) 0 =
    { balance := 10000, position := some pos0, equity := [10000, 10000], trades := [] } := by
  norm_num [btStep, processExit, processEntry, recordEquity, initState, signalAt0,
    candles0, execute_entry, calculate_unrealized_pnl, sig0, pos0]

theorem step1_eval :
    btStep 0 signalAt0 candles0
      { balance := 10000, position := some pos0, equity := [10000, 10000], trades := [] } 1 =
    { balance := 9960, position := none, equity := [10000, 10000, 9960], trades := [trade0] } := by
  norm_num [btStep, processExit, processEntry, recordEquity, signalAt0, candles0,
    check_exit_conditions, execute_exit, calculate_unrealized_pnl, pos0, trade0]

theorem run0 : runBars 0 signalAt0 candles0 (initState 10000) [0, 1] =
    { balance := 9960, position := none, equity := [10000, 10000, 9960], trades := [trade0] } := by
  rw [runBars, List.foldl_cons, step0_eval, List.foldl_cons, step1_eval, List.foldl_nil]

/-! Characterization of `listMin` / `listMax`. -/

theorem listMin_eq_none_iff (l : List ℚ) : listMin l = none ↔ l = [] := by
  cases l with
  | nil => simp [listMin]
  | cons x xs => rw [listMin_cons]; simp

theorem listMin_mem (l : List ℚ) : ∀ m, listMin l = some m → m ∈ l := by
  induction l with
  | nil => intro m h; simp [listMin] at h
  | cons x xs ih =>
    intro m h
    rw [listMin_cons] at h
    cases hxs : listMin xs with
    | none =>
      rw [hxs] at h
      simp at h
      simp [h]
    | some m' =>
      rw [hxs] at h
      simp at h
      rcases min_choice x m' with hc | hc <;> rw [hc] at h
      · simp [h]
      · exact List.mem_cons_of_mem x (h ▸ ih m' hxs)

theorem listMin_le (l : List ℚ) : ∀ m, listMin l = some m → ∀ x ∈ l, m ≤ x := by
  induction l with
  | nil => intro m h; simp [listMin] at h
  | cons x xs ih =>
    intro m h y hy
    rw [listMin_cons] at h
    cases hxs : listMin xs with
    | none =>
      rw [hxs] at h
      simp at h
      have hnil : xs = [] := (listMin_eq_none_iff xs).mp hxs
      subst hnil
      simp at hy
      simp [hy, h]
    | some m' =>
      rw [hxs] at h
      simp at h
      rcases List.mem_cons.mp hy with hy | hy
      · subst hy; rw [← h]; exact min_le_left _ _
      · calc m ≤ m' := by rw [← h]; exact min_le_right _ _
          _ ≤ y := ih m' hxs y hy

theorem listMax_eq_none_iff (l : List ℚ) : listMax l = none ↔ l = [] := by
  cases l with
  | nil => simp [listMax]
  | cons x xs => rw [listMax_cons]; simp

theorem listMax_mem (l : List ℚ) : ∀ m, listMax l = some m → m ∈ l := by
  induction l with
  | nil => intro m h; simp [listMax] at h
  | cons x xs ih =>
    intro m h
    rw [listMax_cons] at h
    cases hxs : listMax xs with
    | none =>
      rw [hxs] at h
      simp at h
      simp [h]
    | some m' =>
      rw [hxs] at h
      simp at h
      rcases max_choice x m' with hc | hc <;> rw [hc] at h
      · simp [h]
      · exact List.mem_cons_of_mem x (h ▸ ih m' hxs)

theorem listMax_ge (l : List ℚ) : ∀ m, listMax l = some m → ∀ x ∈ l, x ≤ m := by
  induction l with
  | nil => intro m h; simp [listMax] at h
  | cons x xs ih =>
    intro m h y hy
    rw [listMax_cons] at h
    cases hxs : listMax xs with
    | none =>
      rw [hxs] at h
      simp at h
      have hnil : xs = [] := (listMax_eq_none_iff xs).mp hxs
      subst hnil
      simp at hy
      simp [hy, h]
    | some m' =>
      rw [hxs] at h
      simp at h
      rcases List.mem_cons.mp hy with hy | hy
      · subst hy; rw [← h]; exact le_max_left _ _
      · calc y ≤ m' := ih m' hxs y hy
          _ ≤ m := by rw [← h]; exact le_max_right _ _

/-! Characterization of the take-profit scan. -/

theorem check_take_profits_meta (direction : Dir) (c : Candle) (date : Nat) (tps : List ℚ) :
    ∀ (hit i : Nat) (er : ExitResult),
      check_take_profits direction tps hit c date i = some er →
      er.date = date ∧ ∃ k, er.reason = ExitReason.takeProfitHit k := by
  induction tps with
  | nil =>
    intro hit i er h
    simp [check_take_profits] at h
  | cons tp rest ih =>
    intro hit i er h
    rw [check_take_profits.eq_def] at h
    dsimp only at h
    by_cases hh : hit ≤ i
    · rw [if_pos hh] at h
      cases direction with
      | LONG =>
        by_cases ht : tp ≤ c.high
        · rw [if_pos ht] at h
          injection h with h
          subst h
          exact ⟨rfl, ⟨i + 1, rfl⟩⟩
        · rw [if_neg ht] at h
          exact ih hit (i+1) er h
      | SHORT =>
        by_cases ht : c.low ≤ tp
        · rw [if_pos ht] at h
          injection h with h
          subst h
          exact ⟨rfl, ⟨i + 1, rfl⟩⟩
        · rw [if_neg ht] at h
          exact ih hit (i+1) er h
    · rw [if_neg hh] at h
      exact ih hit (i+1) er h

theorem tp_triggered_iff_long (c : Candle) (tp : ℚ) :
    tp_triggered Dir.LONG c tp ↔ tp ≤ c.high := Iff.rfl

theorem tp_triggered_iff_short (c : Candle) (tp : ℚ) :
    tp_triggered Dir.SHORT c tp ↔ c.low ≤ tp := Iff.rfl

theorem check_take_profits_none (direction : Dir) (c : Candle) (date : Nat) (tps : List ℚ) :
    ∀ (hit i : Nat),
      (∀ k tp, tps[k]? = some tp → hit ≤ i + k → ¬ tp_triggered direction c tp) →
      check_take_profits direction tps hit c date i = none := by
  induction tps with
  | nil => intro hit i _; simp [check_take_profits]
  | cons tp rest ih =>
    intro hit i hnone
    rw [check_take_profits.eq_def]
    dsimp only
    have hrest : check_take_profits direction rest hit c date (i+1) = none := by
      apply ih hit (i+1)
      intro k tpk hk hle
      exact hnone (k+1) tpk (by simpa using hk) (by omega)
    by_cases hh : hit ≤ i
    · rw [if_pos hh]
      have hhead : ¬ tp_triggered direction c tp :=
        hnone 0 tp (by simp) (by omega)
      cases direction with
      | LONG =>
        dsimp only
        rw [if_neg (show ¬ tp ≤ c.high from hhead)]
        exact hrest
      | SHORT =>
        dsimp only
        rw [if_neg (show ¬ c.low ≤ tp from hhead)]
        exact hrest
    · rw [if_neg hh]
      exact hrest

theorem check_take_profits_first (direction : Dir) (c : Candle) (date : Nat) (tps : List ℚ) :
    ∀ (hit i k : Nat) (tp : ℚ),
      tps[k]? = some tp → hit ≤ i + k → tp_triggered direction c tp →
      (∀ j tpj, j < k → tps[j]? = some tpj → hit ≤ i + j → ¬ tp_triggered direction c tpj) →
      check_take_profits direction tps hit c date i =
        some ⟨tp, ExitReason.takeProfitHit (i + k + 1), date, some (i + k + 1)⟩ := by
  induction tps with
  | nil =>
    intro hit i k tp hk
    simp at hk
  | cons head rest ih =>
    intro hit i k tp hk hle htrig hmin
    rw [check_take_profits.eq_def]
    dsimp only
    by_cases hh : hit ≤ i
    · rw [if_pos hh]
      cases k with
      | zero =>
        simp at hk
        subst hk
        cases direction with
        | LONG =>
          dsimp only
          rw [if_pos (show head ≤ c.high from htrig)]
        | SHORT =>
          dsimp only
          rw [if_pos (show c.low ≤ head from htrig)]
      | succ k' =>
        have hhead : ¬ tp_triggered direction c head :=
          hmin 0 head (Nat.succ_pos k') (by simp) (by omega)
        have hrec :
            check_take_profits direction rest hit c date (i+1) =
              some ⟨tp, ExitReason.takeProfitHit ((i+1) + k' + 1), date, some ((i+1) + k' + 1)⟩ := by
          apply ih hit (i+1) k' tp (by simpa using hk) (by omega) htrig
          intro j tpj hj hjk hjle
          exact hmin (j+1) tpj (by omega) (by simpa using hjk) (by omega)
        have hidx : (i+1) + k' + 1 = i + (k' + 1) + 1 := by omega
        rw [hidx] at hrec
        cases direction with
        | LONG =>
          dsimp only
          rw [if_neg (show ¬ head ≤ c.high from hhead)]
          exact hrec
        | SHORT =>
          dsimp only
          rw [if_neg (show ¬ c.low ≤ head from hhead)]
          exact hrec
    · rw [if_neg hh]
      cases k with
      | zero => omega
      | succ k' =>
        have hrec :
            check_take_profits direction rest hit c date (i+1) =
              some ⟨tp, ExitReason.takeProfitHit ((i+1) + k' + 1), date, some ((i+1) + k' + 1)⟩ := by
          apply ih hit (i+1) k' tp (by simpa using hk) (by omega) htrig
          intro j tpj hj hjk hjle
          exact hmin (j+1) tpj (by omega) (by simpa using hjk) (by omega)
        have hidx : (i+1) + k' + 1 = i + (k' + 1) + 1 := by omega
        rw [hidx] at hrec
        exact hrec

/-! Structural lemmas about one loop iteration of the simulator. -/

theorem execute_exit_fst (cr : ℚ) (p : Position) (er : ExitResult) (balance : ℚ) :
    (execute_exit cr p er balance).1 = balance + (execute_exit cr p er balance).2.net_pnl := rfl

theorem execute_exit_trade_fields (cr : ℚ) (p : Position) (er : ExitResult) (balance : ℚ) :
    (execute_exit cr p er balance).2.entry_date = p.entry_date ∧
    (execute_exit cr p er balance).2.exit_date = er.date ∧
    (execute_exit cr p er balance).2.exit_reason = er.reason ∧
    (execute_exit cr p er balance).2.position_size = p.position_size :=
  ⟨rfl, rfl, rfl, rfl⟩

theorem processExit_cases (cr : ℚ) (candles : Nat → Candle) (s : BTState) (i : Nat) :
    ((s.position = none ∨ ∃ p, s.position = some p ∧ check_exit_conditions p (candles i) i = none) ∧
      processExit cr candles s i = s) ∨
    (∃ p er, s.position = some p ∧ check_exit_conditions p (candles i) i = some er ∧
      processExit cr candles s i =
        { s with balance := (execute_exit cr p er s.balance).1, position := none,
                 trades := s.trades ++ [(execute_exit cr p er s.balance).2] }) := by
  cases hp : s.position with
  | none =>
    left
    refine ⟨Or.inl rfl, ?_⟩
    rw [processExit, hp]
  | some p =>
    cases hc : check_exit_conditions p (candles i) i with
    | none =>
      left
      refine ⟨Or.inr ⟨p, rfl, hc⟩, ?_⟩
      rw [processExit, hp]
      dsimp only
      rw [hc]
    | some er =>
      right
      refine ⟨p, er, rfl, hc, ?_⟩
      rw [processExit, hp]
      dsimp only
      rw [hc]

theorem processEntry_of_position (cr : ℚ) (signalAt : Nat → Option Signal) (s : BTState)
    (i : Nat) (p : Position) (hp : s.position = some p) :
    processEntry cr signalAt s i = s := by
  rw [processEntry, hp]

theorem processEntry_balance (cr : ℚ) (signalAt : Nat → Option Signal) (s : BTState) (i : Nat) :
    (processEntry cr signalAt s i).balance = s.balance := by
  rw [processEntry]
  cases s.position <;> [skip; rfl]
  cases signalAt i <;> rfl

theorem processEntry_trades (cr : ℚ) (signalAt : Nat → Option Signal) (s : BTState) (i : Nat) :
    (processEntry cr signalAt s i).trades = s.trades := by
  rw [processEntry]
  cases s.position <;> [skip; rfl]
  cases signalAt i <;> rfl

theorem processEntry_position_cases (cr : ℚ) (signalAt : Nat → Option Signal) (s : BTState) (i : Nat) :
    (processEntry cr signalAt s i).position = s.position ∨
    ∃ sg, signalAt i = some sg ∧ s.position = none ∧
      (processEntry cr signalAt s i).position = some (execute_entry cr sg s.balance i) := by
  rw [processEntry]
  cases hp : s.position with
  | none =>
    cases hs : signalAt i with
    | none => left; rw [hp]
    | some sg => right; exact ⟨sg, rfl, rfl, rfl⟩
  | some p => left; rw [hp]

theorem recordEquity_balance (candles : Nat → Candle) (s : BTState) (i : Nat) :
    (recordEquity candles s i).balance = s.balance := rfl

theorem recordEquity_position (candles : Nat → Candle) (s : BTState) (i : Nat) :
    (recordEquity candles s i).position = s.position := rfl

theorem recordEquity_trades (candles : Nat → Candle) (s : BTState) (i : Nat) :
    (recordEquity candles s i).trades = s.trades := rfl

theorem btStep_eq (cr : ℚ) (signalAt : Nat → Option Signal) (candles : Nat → Candle)
    (s : BTState) (i : Nat) :
    btStep cr signalAt candles s i =
      recordEquity candles (processEntry cr signalAt (processExit cr candles s i) i) i := rfl

theorem runBars_nil (cr : ℚ) (signalAt : Nat → Option Signal) (candles : Nat → Candle)
    (s : BTState) : runBars cr signalAt candles s [] = s := rfl

theorem runBars_cons (cr : ℚ) (signalAt : Nat → Option Signal) (candles : Nat → Candle)
    (s : BTState) (i : Nat) (bs : List Nat) :
    runBars cr signalAt candles s (i :: bs) =
      runBars cr signalAt candles (btStep cr signalAt candles s i) bs := rfl

theorem processExit_balance_inv (cr : ℚ) (candles : Nat → Candle) (s : BTState) (i : Nat)
    (b0 : ℚ) (h : s.balance = b0 + (s.trades.map Trade.net_pnl).sum) :
    (processExit cr candles s i).balance =
      b0 + ((processExit cr candles s i).trades.map Trade.net_pnl).sum := by
  rcases processExit_cases cr candles s i with ⟨_, heq⟩ | ⟨p, er, _, _, heq⟩
  · rw [heq]; exact h
  · rw [heq]
    simp only [List.map_append, List.sum_append, List.map_cons, List.map_nil, List.sum_cons,
      List.sum_nil]
    rw [execute_exit_fst, h]
    ring

theorem btStep_balance_inv (cr : ℚ) (signalAt : Nat → Option Signal) (candles : Nat → Candle)
    (s : BTState) (i : Nat) (b0 : ℚ)
    (h : s.balance = b0 + (s.trades.map Trade.net_pnl).sum) :
    (btStep cr signalAt candles s i).balance =
      b0 + ((btStep cr signalAt candles s i).trades.map Trade.net_pnl).sum := by
  rw [btStep_eq, recordEquity_balance, recordEquity_trades, processEntry_balance,
    processEntry_trades]
  exact processExit_balance_inv cr candles s i b0 h

theorem runBars_balance_inv (cr : ℚ) (signalAt : Nat → Option Signal) (candles : Nat → Candle)
    (b0 : ℚ) : ∀ (bars : List Nat) (s : BTState),
    s.balance = b0 + (s.trades.map Trade.net_pnl).sum →
    (runBars cr signalAt candles s bars).balance =
      b0 + ((runBars cr signalAt candles s bars).trades.map Trade.net_pnl).sum := by
  intro bars
  induction bars with
  | nil => intro s h; rw [runBars_nil]; exact h
  | cons i bs ih =>
    intro s h
    rw [runBars_cons]
    exact ih _ (btStep_balance_inv cr signalAt candles s i b0 h)

theorem btStep_trades_mem (cr : ℚ) (signalAt : Nat → Option Signal) (candles : Nat → Candle)
    (s : BTState) (i : Nat) :
    ∀ t ∈ (btStep cr signalAt candles s i).trades, t ∈ s.trades ∨
      ∃ p er, s.position = some p ∧ check_exit_conditions p (candles i) i = some er ∧
        t = (execute_exit cr p er s.balance).2 := by
  intro t ht
  rw [btStep_eq, recordEquity_trades, processEntry_trades] at ht
  rcases processExit_cases cr candles s i with ⟨_, heq⟩ | ⟨p, er, hp, hc, heq⟩
  · rw [heq] at ht; exact Or.inl ht
  · rw [heq] at ht
    simp only [List.mem_append, List.mem_singleton] at ht
    rcases ht with ht | ht
    · exact Or.inl ht
    · exact Or.inr ⟨p, er, hp, hc, ht⟩

theorem btStep_position_src (cr : ℚ) (signalAt : Nat → Option Signal) (candles : Nat → Candle)
    (s : BTState) (i : Nat) :
    ∀ q, (btStep cr signalAt candles s i).position = some q →
      s.position = some q ∨ q.entry_date = i := by
  intro q hq
  rw [btStep_eq, recordEquity_position] at hq
  rcases processEntry_position_cases cr signalAt (processExit cr candles s i) i with
    hsame | ⟨sg, _, _, hnew⟩
  · rw [hsame] at hq
    rcases processExit_cases cr candles s i with ⟨_, heq⟩ | ⟨p, er, _, _, heq⟩
    · rw [heq] at hq; exact Or.inl hq
    · rw [heq] at hq; exact absurd hq (by simp)
  · rw [hnew] at hq
    injection hq with hq
    right
    rw [← hq]
    rfl

theorem check_exit_conditions_meta (p : Position) (c : Candle) (d : Nat) (er : ExitResult)
    (h : check_exit_conditions p c d = some er) :
    er.date = d ∧ er.reason ≠ ExitReason.endOfBacktest := by
  rw [check_exit_conditions] at h
  cases hd : p.direction with
  | LONG =>
    rw [hd] at h
    dsimp only at h
    by_cases hs : c.low ≤ p.stop_loss
    · rw [if_pos hs] at h
      injection h with h
      subst h
      exact ⟨rfl, fun hcon => ExitReason.noConfusion hcon⟩
    · rw [if_neg hs] at h
      obtain ⟨hdate, k, hk⟩ := check_take_profits_meta Dir.LONG c d p.take_profits p.tp_levels_hit 0 er h
      exact ⟨hdate, by rw [hk]; exact fun hcon => ExitReason.noConfusion hcon⟩
  | SHORT =>
    rw [hd] at h
    dsimp only at h
    by_cases hs : p.stop_loss ≤ c.high
    · rw [if_pos hs] at h
      injection h with h
      subst h
      exact ⟨rfl, fun hcon => ExitReason.noConfusion hcon⟩
    · rw [if_neg hs] at h
      obtain ⟨hdate, k, hk⟩ := check_take_profits_meta Dir.SHORT c d p.take_profits p.tp_levels_hit 0 er h
      exact ⟨hdate, by rw [hk]; exact fun hcon => ExitReason.noConfusion hcon⟩

theorem runBars_exit_dates_aux (cr : ℚ) (signalAt : Nat → Option Signal)
    (candles : Nat → Candle) :
    ∀ (bars : List Nat) (s : BTState),
      bars.Pairwise (· < ·) →
      (∀ t ∈ s.trades, t.exit_reason ≠ ExitReason.endOfBacktest → t.entry_date < t.exit_date) →
      (∀ p, s.position = some p → ∀ b ∈ bars, p.entry_date < b) →
      ∀ t ∈ (runBars cr signalAt candles s bars).trades,
        t.exit_reason ≠ ExitReason.endOfBacktest → t.entry_date < t.exit_date := by
  intro bars
  induction bars with
  | nil =>
    intro s _ htr _ t ht
    rw [runBars_nil] at ht
    exact htr t ht
  | cons i bs ih =>
    intro s hpw htr hpos
    rw [runBars_cons]
    have hpw' : bs.Pairwise (· < ·) := (List.pairwise_cons.mp hpw).2
    have hhead : ∀ b ∈ bs, i < b := (List.pairwise_cons.mp hpw).1
    apply ih _ hpw'
    · intro t ht hreason
      rcases btStep_trades_mem cr signalAt candles s i t ht with hold | ⟨p, er, hp, hc, hnewtr⟩
      · exact htr t hold hreason
      · subst hnewtr
        obtain ⟨hdate, _⟩ := check_exit_conditions_meta p (candles i) i er hc
        rw [(execute_exit_trade_fields cr p er s.balance).1,
          (execute_exit_trade_fields cr p er s.balance).2.1, hdate]
        exact hpos p hp i (List.mem_cons_self i bs)
    · intro q hq b hb
      rcases btStep_position_src cr signalAt candles s i q hq with hold | hnewdate
      · exact hpos q hold b (List.mem_cons_of_mem i hb)
      · rw [hnewdate]
        exact hhead b hb

theorem calculate_signal_details_timestamp (cfg : Config) (df : List Row) (setup : Setup)
    (sentiment : ℚ) (symbol timeframe now : String) :
    calculate_signal_details cfg df setup sentiment symbol timeframe now =
      (calculate_signal_details cfg df setup sentiment symbol timeframe ("")).map
        (fun g => { g with timestamp := now }) := by
  rw [calculate_signal_details]
  rw [calculate_signal_details]
  cases df.getLast? with
  | none => cases setup.direction <;> rfl
  | some current =>
    cases setup.direction with
    | none => rfl
    | some direction =>
      dsimp only
      cases current.atr <;> cases current.ema_fast <;> cases current.ema_slow <;>
        cases current.rsi <;> rfl

/-! Claim theorems. -/

/-- C4: for every account balance ≥ 0, risk percent ≥ 0 and entry price > 0,
the position-size computation (`SignalGenerator._calculate_position_size`,
the function the signal path uses) returns a size that is never negative and
never exceeds 0.10 × balance / entry; it returns exactly 0 when
|entry − stop| = 0 and otherwise
min(balance × (risk/100) / |entry − stop|, balance × 0.10 / entry). -/
theorem position_size_bounds (account_balance risk_percent entry_price stop_loss : ℚ)
    (hb : 0 ≤ account_balance) (hr : 0 ≤ risk_percent) (he : 0 < entry_price) :
    0 ≤ calculate_position_size risk_percent account_balance entry_price stop_loss ∧
    calculate_position_size risk_percent account_balance entry_price stop_loss ≤
      account_balance * (1/10) / entry_price ∧
    (|entry_price - stop_loss| = 0 →
      calculate_position_size risk_percent account_balance entry_price stop_loss = 0) ∧
    (|entry_price - stop_loss| ≠ 0 →
      calculate_position_size risk_percent account_balance entry_price stop_loss =
        min (account_balance * (risk_percent/100) / |entry_price - stop_loss|)
          (account_balance * (1/10) / entry_price)) := by
  have hcap : 0 ≤ account_balance * (1/10) / entry_price :=
    div_nonneg (mul_nonneg hb (by norm_num)) he.le
  by_cases hd : |entry_price - stop_loss| = 0
  · have hv : calculate_position_size risk_percent account_balance entry_price stop_loss = 0 := by
      simp only [calculate_position_size, if_pos hd]
    exact ⟨by rw [hv], by rw [hv]; exact hcap, fun _ => hv, fun hcon => absurd hd hcon⟩
  · have hdpos : 0 < |entry_price - stop_loss| := lt_of_le_of_ne (abs_nonneg _) (Ne.symm hd)
    have hA : 0 ≤ account_balance * (risk_percent/100) / |entry_price - stop_loss| :=
      div_nonneg (mul_nonneg hb (div_nonneg hr (by norm_num))) hdpos.le
    have hv : calculate_position_size risk_percent account_balance entry_price stop_loss =
        min (account_balance * (risk_percent/100) / |entry_price - stop_loss|)
          (account_balance * (1/10) / entry_price) := by
      simp only [calculate_position_size, if_neg hd]
    exact ⟨by rw [hv]; exact le_min hA hcap, by rw [hv]; exact min_le_right _ _,
      fun hcon => absurd hcon hd, fun _ => hv⟩

/-- C4 witness: the bounds instantiated at balance 10000, risk 2%, entry 100,
stop 96 (where the computed size is the 10%-notional cap, 10). -/
theorem position_size_bounds_witness :
    0 ≤ calculate_position_size 2 10000 100 96 ∧
    calculate_position_size 2 10000 100 96 ≤ 10000 * (1/10) / 100 :=
  ⟨(position_size_bounds 10000 2 100 96 (by norm_num) (by norm_num) (by norm_num)).1,
   (position_size_bounds 10000 2 100 96 (by norm_num) (by norm_num) (by norm_num)).2.1⟩

/-- C5 counterexample: with entry = stop the default ladder collapses to
three equal prices, so strict monotonicity fails for the configured ratios
1 < 3/2 (|tp − entry| is 0 in both cases); it also fails for a negative
ratio −1 < 1 at entry 100, stop 96 (both targets lie 4 away from entry). -/
theorem take_profit_monotonicity_cex :
    calculate_take_profits 100 100 Dir.LONG [1, 3/2, 5/2] = [100, 100, 100] ∧
    (1:ℚ) < 3/2 ∧ ¬ (|(100:ℚ) - 100| > |(100:ℚ) - 100|) ∧
    calculate_take_profits 100 96 Dir.LONG [-1, 1] = [96, 104] ∧
    (-1:ℚ) < 1 ∧ ¬ (|(104:ℚ) - 100| > |(96:ℚ) - 100|) := by
  refine ⟨?_, by norm_num, by norm_num, ?_, by norm_num, by norm_num⟩
  · rw [calculate_take_profits]
    norm_num
  · rw [calculate_take_profits]
    norm_num

/-- C5 (amended): when entry ≠ stop, the take-profit computation produces
exactly len(ratios) prices with tp = entry ± |entry−stop|×r
(direction-signed), and for any two nonnegative ratios r1 < r2 the produced
prices satisfy |tp(r1) − entry| < |tp(r2) − entry|. -/
theorem take_profit_spec (entry_price stop_loss : ℚ) (direction : Dir) (rs : List ℚ)
    (hne : entry_price ≠ stop_loss) :
    (calculate_take_profits entry_price stop_loss direction rs).length = rs.length ∧
    (∀ (k : Nat) (r : ℚ), rs[k]? = some r →
      (calculate_take_profits entry_price stop_loss direction rs)[k]? =
        some ((match direction with
               | Dir.LONG => entry_price + |entry_price - stop_loss| * r
               | Dir.SHORT => entry_price - |entry_price - stop_loss| * r : ℚ))) ∧
    (∀ (i j : Nat) (r1 r2 t1 t2 : ℚ), rs[i]? = some r1 → rs[j]? = some r2 → 0 ≤ r1 → r1 < r2 →
      (calculate_take_profits entry_price stop_loss direction rs)[i]? = some t1 →
      (calculate_take_profits entry_price stop_loss direction rs)[j]? = some t2 →
      |t1 - entry_price| < |t2 - entry_price|) := by
  have hrisk : 0 < |entry_price - stop_loss| := abs_pos.mpr (sub_ne_zero.mpr hne)
  have hmap : ∀ (k : Nat) (r : ℚ), rs[k]? = some r →
      (calculate_take_profits entry_price stop_loss direction rs)[k]? =
        some ((match direction with
               | Dir.LONG => entry_price + |entry_price - stop_loss| * r
               | Dir.SHORT => entry_price - |entry_price - stop_loss| * r : ℚ)) := by
    intro k r hk
    rw [calculate_take_profits]
    rw [List.getElem?_map, hk]
    cases direction <;> rfl
  refine ⟨by simp [calculate_take_profits], hmap, ?_⟩
  intro i j r1 r2 t1 t2 hi hj hr1 hlt ht1 ht2
  have hr2 : 0 ≤ r2 := hr1.trans hlt.le
  have e1 := hmap i r1 hi
  have e2 := hmap j r2 hj
  rw [ht1] at e1
  rw [ht2] at e2
  injection e1 with e1
  injection e2 with e2
  have hmul : |entry_price - stop_loss| * r1 < |entry_price - stop_loss| * r2 :=
    mul_lt_mul_of_pos_left hlt hrisk
  cases direction with
  | LONG =>
    dsimp only at e1 e2
    rw [e1, e2, add_sub_cancel_left, add_sub_cancel_left,
      abs_of_nonneg (mul_nonneg hrisk.le hr1), abs_of_nonneg (mul_nonneg hrisk.le hr2)]
    exact hmul
  | SHORT =>
    dsimp only at e1 e2
    have f1 : entry_price - |entry_price - stop_loss| * r1 - entry_price =
        -(|entry_price - stop_loss| * r1) := by ring
    have f2 : entry_price - |entry_price - stop_loss| * r2 - entry_price =
        -(|entry_price - stop_loss| * r2) := by ring
    rw [e1, e2, f1, f2, abs_neg, abs_neg,
      abs_of_nonneg (mul_nonneg hrisk.le hr1), abs_of_nonneg (mul_nonneg hrisk.le hr2)]
    exact hmul

/-- C5 witness: at entry 100, stop 96, LONG, default ratios, the TP1/TP2
targets 104 and 106 satisfy the strict distance ordering. -/
theorem take_profit_spec_witness : |(104:ℚ) - 100| < |(106:ℚ) - 100| :=
  (take_profit_spec 100 96 Dir.LONG [1, 3/2, 5/2] (by norm_num)).2.2 0 1 1 (3/2) 104 106
    rfl rfl (by norm_num) (by norm_num) (by rw [tps_df0]; rfl) (by rw [tps_df0]; rfl)

/-- C9: the stop-loss computation at the default ATR multiplier 2.0 returns
entry − atr×2 (LONG) / entry + atr×2 (SHORT) when no swing points survive
among the most recent 5 defined swing cells, and otherwise
min(entry − atr×2, 0.998 × min recent swing low) for LONG, respectively
max(entry + atr×2, 1.002 × max recent swing high) for SHORT — stated as the
exact bound-and-attainment characterization of that min/max. -/
theorem stop_loss_spec (df : List Row) (entry_price atrv : ℚ) :
    (tailN 5 (df.filterMap Row.swing_low) = [] →
      calculate_stop_loss 2 df Dir.LONG entry_price atrv = entry_price - atrv * 2) ∧
    (tailN 5 (df.filterMap Row.swing_low) ≠ [] →
      calculate_stop_loss 2 df Dir.LONG entry_price atrv ≤ entry_price - atrv * 2 ∧
      (∀ x ∈ tailN 5 (df.filterMap Row.swing_low),
        calculate_stop_loss 2 df Dir.LONG entry_price atrv ≤ x * (998/1000)) ∧
      (calculate_stop_loss 2 df Dir.LONG entry_price atrv = entry_price - atrv * 2 ∨
       ∃ x ∈ tailN 5 (df.filterMap Row.swing_low),
         calculate_stop_loss 2 df Dir.LONG entry_price atrv = x * (998/1000))) ∧
    (tailN 5 (df.filterMap Row.swing_high) = [] →
      calculate_stop_loss 2 df Dir.SHORT entry_price atrv = entry_price + atrv * 2) ∧
    (tailN 5 (df.filterMap Row.swing_high) ≠ [] →
      entry_price + atrv * 2 ≤ calculate_stop_loss 2 df Dir.SHORT entry_price atrv ∧
      (∀ x ∈ tailN 5 (df.filterMap Row.swing_high),
        x * (1002/1000) ≤ calculate_stop_loss 2 df Dir.SHORT entry_price atrv) ∧
      (calculate_stop_loss 2 df Dir.SHORT entry_price atrv = entry_price + atrv * 2 ∨
       ∃ x ∈ tailN 5 (df.filterMap Row.swing_high),
         calculate_stop_loss 2 df Dir.SHORT entry_price atrv = x * (1002/1000))) := by
  have hL : calculate_stop_loss 2 df Dir.LONG entry_price atrv =
      (match listMin (tailN 5 (df.filterMap Row.swing_low)) with
       | some m => min (entry_price - atrv * 2) (m * (998/1000))
       | none => entry_price - atrv * 2) := by
    rw [calculate_stop_loss]
  have hS : calculate_stop_loss 2 df Dir.SHORT entry_price atrv =
      (match listMax (tailN 5 (df.filterMap Row.swing_high)) with
       | some m => max (entry_price + atrv * 2) (m * (1002/1000))
       | none => entry_price + atrv * 2) := by
    rw [calculate_stop_loss]
  refine ⟨?_, ?_, ?_, ?_⟩
  · intro hnil
    rw [hL, (listMin_eq_none_iff _).mpr hnil]
  · intro hne
    cases hml : listMin (tailN 5 (df.filterMap Row.swing_low)) with
    | none => exact absurd ((listMin_eq_none_iff _).mp hml) hne
    | some m =>
      rw [hL, hml]
      dsimp only
      refine ⟨min_le_left _ _, ?_, ?_⟩
      · intro x hx
        calc min (entry_price - atrv * 2) (m * (998/1000)) ≤ m * (998/1000) :=
              min_le_right _ _
          _ ≤ x * (998/1000) :=
              mul_le_mul_of_nonneg_right (listMin_le _ m hml x hx) (by norm_num)
      · rcases min_choice (entry_price - atrv * 2) (m * (998/1000)) with hc | hc
        · exact Or.inl hc
        · exact Or.inr ⟨m, listMin_mem _ m hml, hc⟩
  · intro hnil
    rw [hS, (listMax_eq_none_iff _).mpr hnil]
  · intro hne
    cases hml : listMax (tailN 5 (df.filterMap Row.swing_high)) with
    | none => exact absurd ((listMax_eq_none_iff _).mp hml) hne
    | some m =>
      rw [hS, hml]
      dsimp only
      refine ⟨le_max_left _ _, ?_, ?_⟩
      · intro x hx
        calc x * (1002/1000) ≤ m * (1002/1000) :=
              mul_le_mul_of_nonneg_right (listMax_ge _ m hml x hx) (by norm_num)
          _ ≤ max (entry_price + atrv * 2) (m * (1002/1000)) := le_max_right _ _
      · rcases max_choice (entry_price + atrv * 2) (m * (1002/1000)) with hc | hc
        · exact Or.inl hc
        · exact Or.inr ⟨m, listMax_mem _ m hml, hc⟩

/-- C9 witness: on a frame whose recent swing lows are exactly [90], the
LONG stop at entry 100, ATR 2 is bounded by the swing-adjusted level
0.998 × 90, and with no swing data at all it equals the pure ATR stop 96. -/
theorem stop_loss_spec_witness :
    calculate_stop_loss 2 dfS9 Dir.LONG 100 2 ≤ 90 * (998/1000) ∧
    calculate_stop_loss 2 df0 Dir.LONG 100 2 = 100 - 2 * 2 := by
  have hlows : tailN 5 (dfS9.filterMap Row.swing_low) = [90] := rfl
  constructor
  · have h := (stop_loss_spec dfS9 100 2).2.1 (by rw [hlows]; exact fun hc => List.noConfusion hc)
    exact h.2.1 90 (by rw [hlows]; exact List.mem_singleton.mpr rfl)
  · exact (stop_loss_spec df0 100 2).1 (by rw [df0_swing_lows]; rfl)

/-- C6: the sentiment-alignment gate passes every |s| < 0.01 regardless of
direction; otherwise it passes LONG iff s ≥ threshold and SHORT iff
s ≤ −threshold; when the gate fails on the detected direction the Signal
Composer returns none; in particular a detected LONG setup with sentiment
0.15 at threshold 0.2 produces no signal. -/
theorem sentiment_gate_spec (cfg : Config) :
    (∀ (s : ℚ) (direction : Dir), |s| < 1/100 →
      validate_sentiment_alignment cfg.sentiment_threshold s direction = true) ∧
    (∀ s : ℚ, 1/100 ≤ |s| →
      (validate_sentiment_alignment cfg.sentiment_threshold s Dir.LONG = true ↔
        cfg.sentiment_threshold ≤ s) ∧
      (validate_sentiment_alignment cfg.sentiment_threshold s Dir.SHORT = true ↔
        s ≤ -cfg.sentiment_threshold)) ∧
    (∀ (df : List Row) (s : ℚ) (symbol timeframe now : String) (direction : Dir),
      (detect_pullback_setup cfg df).direction = some direction →
      validate_sentiment_alignment cfg.sentiment_threshold s direction = false →
      generate_signal cfg df s symbol timeframe now = none) ∧
    (∀ (df : List Row) (symbol timeframe now : String),
      cfg.sentiment_threshold = 1/5 →
      (detect_pullback_setup cfg df).direction = some Dir.LONG →
      generate_signal cfg df (15/100) symbol timeframe now = none) := by
  have hgate : ∀ (df : List Row) (s : ℚ) (symbol timeframe now : String) (direction : Dir),
      (detect_pullback_setup cfg df).direction = some direction →
      validate_sentiment_alignment cfg.sentiment_threshold s direction = false →
      generate_signal cfg df s symbol timeframe now = none := by
    intro df s symbol timeframe now direction hdir hval
    rw [generate_signal]
    by_cases hlen : df.length < 200
    · rw [if_pos hlen]
    · rw [if_neg hlen]
      cases hv : (detect_pullback_setup cfg df).valid with
      | false => simp [hv]
      | true => simp [hv, hdir, hval]
  refine ⟨?_, ?_, hgate, ?_⟩
  · intro s direction h
    rw [validate_sentiment_alignment.eq_def, if_pos h]
  · intro s h
    have hn : ¬ (|s| < 1/100) := not_lt.mpr h
    constructor
    · rw [validate_sentiment_alignment.eq_def, if_neg hn]
      dsimp only
      exact decide_eq_true_iff
    · rw [validate_sentiment_alignment.eq_def, if_neg hn]
      dsimp only
      exact decide_eq_true_iff
  · intro df symbol timeframe now hth hdir
    apply hgate df (15/100) symbol timeframe now Dir.LONG hdir
    rw [validate_sentiment_alignment.eq_def, hth]
    have hneu : ¬ (|(15/100 : ℚ)| < 1/100) := by
      rw [abs_of_nonneg (show (0:ℚ) ≤ 15/100 by norm_num)]
      norm_num
    rw [if_neg hneu]
    dsimp only
    exact decide_eq_false (by norm_num)

/-- C6 witness: on the concrete LONG frame `df0`, sentiment 0.15 with the
default threshold 0.2 yields no signal. -/
theorem sentiment_gate_spec_witness :
    generate_signal cfg0 df0 (15/100) ("BTCUSDT") ("1h") ("t0") = none :=
  (sentiment_gate_spec cfg0).2.2.2 df0 ("BTCUSDT") ("1h") ("t0") rfl
    (by rw [detect_df0]; rfl)

/-- Every result of the detector is the final validation `if` applied to
some (direction, strength, conditions) triple: valid setups get
confidence min(strength/6, 1), invalid ones get no confidence. -/
theorem detect_pullback_setup_shape (cfg : Config) (df : List Row) :
    ∃ (d : Option Dir) (st : Nat) (conds : List String) (rsn : Option String),
      detect_pullback_setup cfg df =
        if d.isSome ∧ 3 ≤ st then
          { valid := true, direction := d, strength := st, conditions := conds,
            confidence := some (min ((st : ℚ) / 6) 1), reason := none }
        else
          { valid := false, direction := d, strength := st, conditions := conds,
            confidence := none, reason := rsn } := by
  rw [detect_pullback_setup]
  by_cases h1 : df.length < max cfg.ema_slow 50
  · rw [if_pos h1]
    exact ⟨none, 0, [], some ("Insufficient data"), rfl⟩
  · rw [if_neg h1]
    cases hlast : df.getLast? with
    | none =>
      exact ⟨none, 0, [], some ("Insufficient data"), rfl⟩
    | some current =>
      dsimp only
      cases hef : current.ema_fast <;> cases hes : current.ema_slow <;>
        cases hrsi : current.rsi <;> cases hatr : current.atr
      all_goals try exact ⟨none, 0, [], some ("Invalid indicator values"), rfl⟩
      exact ⟨_, _, _, none, rfl⟩

/-- C3: a valid Setup has a LONG or SHORT direction, strength at least 3,
confidence exactly min(strength/6, 1) with 0 ≤ confidence ≤ 1; conversely a
Setup with no direction or strength below 3 is invalid. -/
theorem setup_validity_spec (cfg : Config) (df : List Row) :
    ((detect_pullback_setup cfg df).valid = true →
      ((detect_pullback_setup cfg df).direction = some Dir.LONG ∨
       (detect_pullback_setup cfg df).direction = some Dir.SHORT) ∧
      3 ≤ (detect_pullback_setup cfg df).strength ∧
      (detect_pullback_setup cfg df).confidence =
        some (min (((detect_pullback_setup cfg df).strength : ℚ) / 6) 1) ∧
      ∃ c, (detect_pullback_setup cfg df).confidence = some c ∧ 0 ≤ c ∧ c ≤ 1) ∧
    (((detect_pullback_setup cfg df).direction = none ∨
      (detect_pullback_setup cfg df).strength < 3) →
      (detect_pullback_setup cfg df).valid = false) := by
  obtain ⟨d, st, conds, rsn, hshape⟩ := detect_pullback_setup_shape cfg df
  by_cases hc : d.isSome ∧ 3 ≤ st
  · rw [hshape, if_pos hc]
    constructor
    · intro _
      refine ⟨?_, hc.2, rfl, ?_⟩
      · obtain ⟨a, ha⟩ := Option.isSome_iff_exists.mp hc.1
        cases a with
        | LONG => exact Or.inl (by rw [ha])
        | SHORT => exact Or.inr (by rw [ha])
      · exact ⟨min ((st : ℚ) / 6) 1, rfl,
          le_min (div_nonneg (Nat.cast_nonneg st) (by norm_num)) zero_le_one,
          min_le_right _ _⟩
    · intro hfalse
      rcases hfalse with h | h
      · rw [show d = none from h] at hc
        simp at hc
      · have h' : st < 3 := h
        omega
  · rw [hshape, if_neg hc]
    constructor
    · intro habs
      exact absurd habs (by simp)
    · intro _
      rfl

/-- C3 witness: on the concrete frame `df0` the detector returns a valid
LONG setup of strength 4 and the theorem yields its guarantees. -/
theorem setup_validity_spec_witness :
    3 ≤ (detect_pullback_setup cfg0 df0).strength ∧
    (detect_pullback_setup cfg0 df0).confidence =
      some (min (((detect_pullback_setup cfg0 df0).strength : ℚ) / 6) 1) := by
  have h := (setup_validity_spec cfg0 df0).1 (by rw [detect_df0]; rfl)
  exact ⟨h.2.1, h.2.2.1⟩

/-- C2: exit evaluation returns the stop-loss exit at exactly the stop price
whenever the stop condition holds (even if take-profit conditions hold on
the same bar, since the stop is checked first); otherwise it returns the
lowest-indexed take-profit level k with index ≥ tp_levels_hit whose
condition holds, at exactly that level's price, and none when no level
qualifies; and any returned exit closes the entire position: the slot goes
to FLAT and the booked trade carries the full position size. -/
theorem exit_conditions_spec (p : Position) (c : Candle) (date : Nat) :
    (stop_triggered p.direction c p.stop_loss →
      check_exit_conditions p c date =
        some ⟨p.stop_loss, ExitReason.stopLossHit, date, none⟩) ∧
    (¬ stop_triggered p.direction c p.stop_loss →
      (∀ (k : Nat) (tp : ℚ), p.take_profits[k]? = some tp → p.tp_levels_hit ≤ k →
        tp_triggered p.direction c tp →
        (∀ (j : Nat) (tpj : ℚ), j < k → p.take_profits[j]? = some tpj →
          p.tp_levels_hit ≤ j → ¬ tp_triggered p.direction c tpj) →
        check_exit_conditions p c date =
          some ⟨tp, ExitReason.takeProfitHit (k + 1), date, some (k + 1)⟩) ∧
      ((∀ (k : Nat) (tp : ℚ), p.take_profits[k]? = some tp → p.tp_levels_hit ≤ k →
          ¬ tp_triggered p.direction c tp) →
        check_exit_conditions p c date = none)) ∧
    (∀ (cr balance : ℚ) (eqv : List ℚ) (trs : List Trade) (er : ExitResult),
      check_exit_conditions p c date = some er →
      (processExit cr (fun _ => c) ⟨balance, some p, eqv, trs⟩ date).position = none ∧
      (execute_exit cr p er balance).2.position_size = p.position_size) := by
  refine ⟨?_, ?_, ?_⟩
  · intro hstop
    rw [check_exit_conditions]
    cases hd : p.direction with
    | LONG =>
      rw [hd] at hstop
      dsimp only
      rw [if_pos (show c.low ≤ p.stop_loss from hstop)]
    | SHORT =>
      rw [hd] at hstop
      dsimp only
      rw [if_pos (show p.stop_loss ≤ c.high from hstop)]
  · intro hnostop
    constructor
    · intro k tp hk hhit htrig hmin
      rw [check_exit_conditions]
      cases hd : p.direction with
      | LONG =>
        rw [hd] at hnostop htrig hmin
        dsimp only
        rw [if_neg (show ¬ c.low ≤ p.stop_loss from hnostop)]
        have h := check_take_profits_first Dir.LONG c date p.take_profits p.tp_levels_hit 0 k tp
          hk (by omega) htrig (fun j tpj hj hjk hjle => hmin j tpj hj hjk (by omega))
        simpa using h
      | SHORT =>
        rw [hd] at hnostop htrig hmin
        dsimp only
        rw [if_neg (show ¬ p.stop_loss ≤ c.high from hnostop)]
        have h := check_take_profits_first Dir.SHORT c date p.take_profits p.tp_levels_hit 0 k tp
          hk (by omega) htrig (fun j tpj hj hjk hjle => hmin j tpj hj hjk (by omega))
        simpa using h
    · intro hnone
      rw [check_exit_conditions]
      cases hd : p.direction with
      | LONG =>
        rw [hd] at hnostop hnone
        dsimp only
        rw [if_neg (show ¬ c.low ≤ p.stop_loss from hnostop)]
        exact check_take_profits_none Dir.LONG c date p.take_profits p.tp_levels_hit 0
          (fun k tp hk hle => hnone k tp hk (by omega))
      | SHORT =>
        rw [hd] at hnostop hnone
        dsimp only
        rw [if_neg (show ¬ p.stop_loss ≤ c.high from hnostop)]
        exact check_take_profits_none Dir.SHORT c date p.take_profits p.tp_levels_hit 0
          (fun k tp hk hle => hnone k tp hk (by omega))
  · intro cr balance eqv trs er h
    constructor
    · rw [processExit]
      dsimp only
      rw [h]
    · rfl

/-- C2 witness: on `pos0` (LONG, stop 96, TPs from 104) and a bar whose low
95 breaches the stop while its high 105 also reaches TP1, the evaluation
returns the stop exit at exactly 96. -/
theorem exit_conditions_spec_witness :
    check_exit_conditions pos0 { opn := 100, high := 105, low := 95, close := 100, volume := 5 } 3 =
      some ⟨96, ExitReason.stopLossHit, 3, none⟩ := by
  have h := (exit_conditions_spec pos0
    { opn := 100, high := 105, low := 95, close := 100, volume := 5 } 3).1
    (show ((95:ℚ) ≤ 96) by norm_num)
  exact h

/-- C1: along any list of processed bars the simulator's balance equals the
initial balance plus the sum of net P&L over all trades closed so far (so at
every bar the realized balance reconciles exactly against the trade log),
and the equity point recorded by any loop iteration equals that balance plus
the unrealized P&L of the open position at the bar's close — the balance
alone when flat. -/
theorem backtest_equity_reconciliation (cr : ℚ) (signalAt : Nat → Option Signal)
    (candles : Nat → Candle) (b0 : ℚ) (bars : List Nat) :
    (runBars cr signalAt candles (initState b0) bars).balance =
      b0 + (((runBars cr signalAt candles (initState b0) bars).trades.map Trade.net_pnl).sum) ∧
    (∀ (s : BTState) (i : Nat),
      ((btStep cr signalAt candles s i).equity).getLast? =
        some ((btStep cr signalAt candles s i).balance +
          (match (btStep cr signalAt candles s i).position with
           | some p => calculate_unrealized_pnl p ((candles i).close)
           | none => 0))) := by
  constructor
  · apply runBars_balance_inv
    simp [initState]
  · intro s i
    rw [btStep_eq, recordEquity]
    cases hpos : (processEntry cr signalAt (processExit cr candles s i) i).position with
    | none => simp [hpos]
    | some p => simp [hpos]

/-- C10: over any strictly increasing list of processed bars, every trade
the loop books with a stop-loss or take-profit reason (i.e. anything other
than the end-of-data force close) has an exit date strictly later than its
entry date: a position opened at a bar is only exit-checked from the next
processed bar on. -/
theorem backtest_exit_strictly_after_entry (cr : ℚ) (signalAt : Nat → Option Signal)
    (candles : Nat → Candle) (b0 : ℚ) (bars : List Nat)
    (hsorted : bars.Pairwise (· < ·)) :
    ∀ t ∈ (runBars cr signalAt candles (initState b0) bars).trades,
      t.exit_reason ≠ ExitReason.endOfBacktest → t.entry_date < t.exit_date := by
  apply runBars_exit_dates_aux cr signalAt candles bars (initState b0) hsorted
  · intro t ht
    simp [initState] at ht
  · intro p hp
    simp [initState] at hp

/-- C10 witness: in the concrete scenario the loop over bars [0, 1] books
exactly the stop-loss trade `trade0`, entered on bar 0 and exited on bar 1,
so its exit is strictly after its entry. -/
theorem backtest_exit_strictly_after_entry_witness :
    trade0 ∈ (runBars 0 signalAt0 candles0 (initState 10000) [0, 1]).trades ∧
    trade0.entry_date < trade0.exit_date := by
  have hmem : trade0 ∈ (runBars 0 signalAt0 candles0 (initState 10000) [0, 1]).trades := by
    rw [run0]
    exact List.mem_singleton.mpr rfl
  refine ⟨hmem, ?_⟩
  apply backtest_exit_strictly_after_entry 0 signalAt0 candles0 10000 [0, 1]
    (by simp) trade0 hmem
  intro hcon
  exact ExitReason.noConfusion hcon

/-- C8 (amended): between entry and close a backtest Position is never
mutated at all — when a position is open and the bar triggers no exit, the
step leaves the identical record (every field, tp_levels_hit included) in
the slot; a freshly opened position starts with tp_levels_hit = 0; and entry
processing never replaces an open position, so at most one Position is open
at any time in the simulator's single slot. -/
theorem position_frame_spec (cr : ℚ) (signalAt : Nat → Option Signal) (candles : Nat → Candle) :
    (∀ (s : BTState) (i : Nat) (p : Position), s.position = some p →
      check_exit_conditions p (candles i) i = none →
      (btStep cr signalAt candles s i).position = some p) ∧
    (∀ (signal : Signal) (balance : ℚ) (date : Nat),
      (execute_entry cr signal balance date).tp_levels_hit = 0) ∧
    (∀ (s : BTState) (i : Nat) (p : Position), s.position = some p →
      processEntry cr signalAt s i = s) := by
  refine ⟨?_, fun _ _ _ => rfl, fun s i p hp => processEntry_of_position cr signalAt s i p hp⟩
  intro s i p hp hnone
  have hpe : processExit cr candles s i = s := by
    rw [processExit, hp]
    dsimp only
    rw [hnone]
  rw [btStep_eq, recordEquity_position, hpe, processEntry_of_position cr signalAt s i p hp, hp]

/-- C8 witness: with a candle triggering no exit, the step keeps the very
same `pos0` record in the slot. -/
theorem position_frame_spec_witness :
    (btStep 0 (fun _ => none) (fun _ => cNoExit)
      { balance := 10000, position := some pos0, equity := [10000], trades := [] } 7).position =
      some pos0 := by
  apply (position_frame_spec 0 (fun _ => none) (fun _ => cNoExit)).1 _ 7 pos0 rfl
  norm_num [check_exit_conditions, check_take_profits, pos0, cNoExit]

/-- C8 counterexample: at a concrete bar the exit-condition evaluation on a
three-level position flags Take-Profit 1, yet tp_levels_hit is not
incremented: the step destroys the whole position (slot back to FLAT) and
the record still carries tp_levels_hit = 0, so the claimed
"tp_levels_hit increments during exit-condition evaluation" does not occur. -/
theorem position_tp_increment_cex :
    check_exit_conditions pos0 cTP 5 = some ⟨104, ExitReason.takeProfitHit 1, 5, some 1⟩ ∧
    (btStep 0 (fun _ => none) (fun _ => cTP)
      { balance := 10000, position := some pos0, equity := [10000], trades := [] } 5).position =
      none ∧
    pos0.tp_levels_hit = 0 ∧ pos0.take_profits.length = 3 := by
  have hcheck : check_exit_conditions pos0 cTP 5 =
      some ⟨104, ExitReason.takeProfitHit 1, 5, some 1⟩ := by
    norm_num [check_exit_conditions, check_take_profits, pos0, cTP]
  refine ⟨hcheck, ?_, rfl, rfl⟩
  rw [btStep_eq, recordEquity_position]
  have hpe : (processExit 0 (fun _ => cTP)
      { balance := 10000, position := some pos0, equity := [10000], trades := [] } 5).position =
      none := by
    rw [processExit]
    dsimp only
    rw [hcheck]
  rcases processEntry_position_cases 0 (fun _ => none)
    (processExit 0 (fun _ => cTP)
      { balance := 10000, position := some pos0, equity := [10000], trades := [] } 5) 5 with
    hsame | ⟨sg, hsg, _, _⟩
  · rw [hsame, hpe]
  · exact absurd hsg (by simp)

/-- C7 counterexample: two runs of Indicator Engine + Setup Detector +
Signal Composer on the identical 200-bar frame, identical neutral sentiment,
symbol and timeframe, but at two different wall-clock instants, yield
Signals that are not identical: the source stamps each signal with
`datetime.now()`, so the timestamp fields differ while a signal is indeed
produced. -/
theorem signal_rerun_not_identical_cex :
    generate_signal cfg0 df0 0 ("BTCUSDT") ("1h") ("t1") ≠
      generate_signal cfg0 df0 0 ("BTCUSDT") ("1h") ("t2") ∧
    generate_signal cfg0 df0 0 ("BTCUSDT") ("1h") ("t1") = some (sig0 ("t1")) := by
  rw [gen_df0, gen_df0]
  refine ⟨?_, rfl⟩
  intro h
  injection h with h
  exact absurd (congrArg Signal.timestamp h) (by decide)

/-- C7 (amended): the pipeline is deterministic in every field except the
wall-clock timestamp: two runs on the identical frame, sentiment, symbol and
timeframe agree exactly once the timestamp is erased, and any produced
signal's timestamp equals the clock reading of its own run. -/
theorem signal_deterministic_except_timestamp (cfg : Config) (df : List Row) (s : ℚ)
    (symbol timeframe t1 t2 : String) :
    (generate_signal cfg df s symbol timeframe t1).map eraseTimestamp =
      (generate_signal cfg df s symbol timeframe t2).map eraseTimestamp ∧
    (∀ g : Signal, generate_signal cfg df s symbol timeframe t1 = some g →
      g.timestamp = t1) := by
  constructor
  · by_cases hlen : df.length < 200
    · simp [generate_signal, hlen]
    cases hv : (detect_pullback_setup cfg df).valid with
    | false => simp [generate_signal, hlen, hv]
    | true =>
      cases hdir : (detect_pullback_setup cfg df).direction with
      | none => simp [generate_signal, hlen, hv, hdir]
      | some d =>
        cases hval : validate_sentiment_alignment cfg.sentiment_threshold s d with
        | false => simp [generate_signal, hlen, hv, hdir, hval]
        | true =>
          simp only [generate_signal, hlen, if_false, hv, hdir, hval, if_true]
          rw [calculate_signal_details_timestamp cfg df _ s symbol timeframe t1,
            calculate_signal_details_timestamp cfg df _ s symbol timeframe t2]
          cases hbase : calculate_signal_details cfg df (detect_pullback_setup cfg df) s
              symbol timeframe ("") with
          | none => simp
          | some g =>
            by_cases hconf : cfg.min_confidence ≤ g.confidence
            · simp [hconf, eraseTimestamp]
            · simp [hconf, eraseTimestamp]
  · intro g hg
    simp only [generate_signal] at hg
    by_cases hlen : df.length < 200
    · rw [if_pos hlen] at hg
      exact absurd hg (by simp)
    rw [if_neg hlen] at hg
    cases hv : (detect_pullback_setup cfg df).valid with
    | false =>
      rw [hv] at hg
      simp at hg
    | true =>
      rw [hv] at hg
      cases hdir : (detect_pullback_setup cfg df).direction with
      | none =>
        rw [hdir] at hg
        simp at hg
      | some d =>
        rw [hdir] at hg
        dsimp only at hg
        cases hval : validate_sentiment_alignment cfg.sentiment_threshold s d with
        | false =>
          rw [hval] at hg
          simp at hg
        | true =>
          rw [hval] at hg
          rw [calculate_signal_details_timestamp cfg df _ s symbol timeframe t1] at hg
          cases hbase : calculate_signal_details cfg df (detect_pullback_setup cfg df) s
              symbol timeframe ("") with
          | none =>
            rw [hbase] at hg
            simp at hg
          | some g0 =>
            rw [hbase] at hg
            simp at hg
            obtain ⟨hc, hgg⟩ := hg
            rw [← hgg]

end SigBot
